import Mathlib

/-!
Verification of the asynchronous LLM request orchestration layer of the
contribnote repository (`src/openai_client.py`, plus the reasoning-level
table in `src/gui.py`).

The Python code is shallowly embedded: JSON-like Python values are the
inductive `PyVal`; Python operations that can raise (`.get` on a non-dict,
iterating a non-iterable, comparing incomparable sort keys, substring
tests on non-strings) are modelled in `Except PyErr`; Python floats are
modelled as rationals (`Rat`), with each call to `random.uniform(-j, j)`
abstracted as an explicit draw parameter constrained to `[-j, j]`.
-/

/-- A Python value as it appears in a decoded JSON payload.  Dict keys are
strings, matching the output of `response.json()`. -/
inductive PyVal where
  | pyNone : PyVal
  | pyBool (b : Bool) : PyVal
  | pyInt (n : Int) : PyVal
  | pyStr (s : String) : PyVal
  | pyList (xs : List PyVal) : PyVal
  | pyDict (kvs : List (String × PyVal)) : PyVal
deriving Repr

/-- A decoded JSON object (Python dict with string keys). -/
abbrev Pdict := List (String × PyVal)

/-- A Python exception as far as the embedded code can observe it: its
kind and its `str()` form.  Message texts paraphrase CPython's (quoting
elided). -/
inductive PyErr where
  | typeErr (msg : String)
  | attrErr (msg : String)
deriving Repr, DecidableEq

/-- `str(e)` for a modelled exception. -/
def PyErr.text : PyErr → String
  | .typeErr m => m
  | .attrErr m => m

/-- Python truthiness (`if v:`); total, never raises. -/
def pyTruthy : PyVal → Bool
  | .pyNone => false
  | .pyBool b => b
  | .pyInt n => n != 0
  | .pyStr s => s != ""
  | .pyList xs => !xs.isEmpty
  | .pyDict kvs => !kvs.isEmpty

/-- Python `v == s` against a string literal: true only for an equal
string; cross-type comparison is `False`, never an error. -/
def eqStr (v : PyVal) (s : String) : Bool :=
  match v with
  | .pyStr t => t == s
  | _ => false

/-- Python `v == s` against any of several string literals
(models `v in {"a", "b"}` on a set of string constants). -/
def eqStrAny (v : PyVal) (ss : List String) : Bool :=
  ss.any (eqStr v)

/-- First-match association lookup (a Python dict has unique keys, so the
first match is the only one). -/
def dictGet (kvs : Pdict) (k : String) : Option PyVal :=
  match kvs with
  | [] => none
  | (k0, v) :: rest => if k0 == k then some v else dictGet rest k

/-- `d.get(key, default)` on a dict. -/
def dictGetD (kvs : Pdict) (k : String) (d : PyVal) : PyVal :=
  (dictGet kvs k).getD d

/-- `v.get(key, default)`: dicts look the key up, every other value has no
`get` attribute and raises `AttributeError`. -/
def pyGet (v : PyVal) (k : String) (d : PyVal) : Except PyErr PyVal :=
  match v with
  | .pyDict kvs => .ok (dictGetD kvs k d)
  | .pyNone => .error (.attrErr "NoneType object has no attribute get")
  | .pyBool _ => .error (.attrErr "bool object has no attribute get")
  | .pyInt _ => .error (.attrErr "int object has no attribute get")
  | .pyStr _ => .error (.attrErr "str object has no attribute get")
  | .pyList _ => .error (.attrErr "list object has no attribute get")

/-- `for x in v`: lists yield elements, strings their characters,
dicts their keys; other values raise `TypeError`. -/
def pyIter (v : PyVal) : Except PyErr (List PyVal) :=
  match v with
  | .pyList xs => .ok xs
  | .pyStr s => .ok (s.data.map fun c => .pyStr (String.mk [c]))
  | .pyDict kvs => .ok (kvs.map fun kv => .pyStr kv.1)
  | .pyNone => .error (.typeErr "NoneType object is not iterable")
  | .pyBool _ => .error (.typeErr "bool object is not iterable")
  | .pyInt _ => .error (.typeErr "int object is not iterable")

/-- Whether a value may be a member of a Python set (hashable). -/
def pyHashable : PyVal → Bool
  | .pyList _ => false
  | .pyDict _ => false
  | _ => true

/-- Numeric view: Python compares `bool` and `int` as numbers
(`True == 1`). -/
def pyNumVal : PyVal → Option Int
  | .pyBool b => some (cond b 1 0)
  | .pyInt n => some n
  | _ => none

/-- Python `==` restricted to hashable values, as used for set membership
and dict keys: numbers compare by value across `bool`/`int`, strings by
content, `None` to itself; every cross-kind comparison is `False`. -/
def pyEqH (a b : PyVal) : Bool :=
  match pyNumVal a, pyNumVal b with
  | some x, some y => x == y
  | _, _ =>
    match a, b with
    | .pyStr s, .pyStr t => s == t
    | .pyNone, .pyNone => true
    | _, _ => false

mutual

/-- Python `repr` of a value (string quoting written with `\x27`);
`str(dict)` delegates to this shape, which is how the source interpolates
a raw payload into an error message. -/
def pyReprOf : PyVal → String
  | .pyNone => "None"
  | .pyBool b => cond b "True" "False"
  | .pyInt n => toString n
  | .pyStr s => "\x27" ++ s ++ "\x27"
  | .pyList xs => "[" ++ pyReprList xs ++ "]"
  | .pyDict kvs => "\x7b" ++ pyReprDict kvs ++ "\x7d"

/-- Comma-joined reprs of list elements. -/
def pyReprList : List PyVal → String
  | [] => ""
  | [x] => pyReprOf x
  | x :: y :: rest => pyReprOf x ++ ", " ++ pyReprList (y :: rest)

/-- Comma-joined reprs of dict items. -/
def pyReprDict : List (String × PyVal) → String
  | [] => ""
  | [kv] => "\x27" ++ kv.1 ++ "\x27: " ++ pyReprOf kv.2
  | kv :: kv2 :: rest =>
      "\x27" ++ kv.1 ++ "\x27: " ++ pyReprOf kv.2 ++ ", " ++ pyReprDict (kv2 :: rest)

end

/-- `str(response)` for a decoded payload dict (used by the f-string in
the no-content diagnostic). -/
def pyStrOfDict (kvs : Pdict) : String := pyReprOf (.pyDict kvs)

/-- Characters stripped by Python `str.strip()` (ASCII whitespace). -/
def isPySpace (c : Char) : Bool :=
  c == ' ' || c == '\t' || c == '\n' || c == '\r' || c == '\x0b' || c == '\x0c'

/-- `str.strip()` on the character list. -/
def stripChars (l : List Char) : List Char :=
  ((l.dropWhile isPySpace).reverse.dropWhile isPySpace).reverse

/-- `s.strip()`. -/
def pyStrip (s : String) : String := String.mk (stripChars s.data)

/-- Whether `pat` is an initial segment of `l`. -/
def leadsWith : List Char → List Char → Bool
  | [], _ => true
  | _ :: _, [] => false
  | p :: ps, c :: cs => p == c && leadsWith ps cs

/-- Whether `pat` occurs as a contiguous substring of `l`
(Python `pat in l` on strings; the empty pattern always occurs). -/
def hasSub (pat : List Char) : List Char → Bool
  | [] => pat.isEmpty
  | c :: cs => leadsWith pat (c :: cs) || hasSub pat cs

/-- Python `a in b` on strings (substring containment). -/
def strIn (a b : String) : Bool := hasSub a.data b.data

/-!
### `re.sub` and the six cleanup passes of `_clean_inline_citations`

Python's `re.sub` scans left to right, replaces each leftmost non-empty
match, and resumes after the replaced span (replacements are not
rescanned).  Every pattern used by the source matches at least one
character and is deterministic (each `X+` is a maximal run followed by a
required distinct character), so each pass is a single left-to-right scan.
The scan is written with a fuel argument for structural recursion; each
step consumes at least one character, so fuel equal to the input length is
always sufficient and the fuel-exhausted branch is unreachable.
-/

/-- One `re.sub` pass with a fallible replacement callback.  The matcher
is applied at the current position; `some (k, repl)` means the pattern
matched `k ≥ 1` characters, to be replaced by `repl`. -/
def reSubF (m : List Char → Except PyErr (Option (Nat × List Char))) :
    Nat → List Char → Except PyErr (List Char)
  | _, [] => .ok []
  | 0, l => .ok l
  | fuel + 1, c :: rest =>
    match m (c :: rest) with
    | .error e => .error e
    | .ok none =>
      match reSubF m fuel rest with
      | .error e => .error e
      | .ok tail => .ok (c :: tail)
    | .ok (some (k, repl)) =>
      match reSubF m fuel (rest.drop (k - 1)) with
      | .error e => .error e
      | .ok tail => .ok (repl ++ tail)

/-- One `re.sub` pass with a pure replacement. -/
def reSubP (m : List Char → Option (Nat × List Char)) :
    Nat → List Char → List Char
  | _, [] => []
  | 0, l => l
  | fuel + 1, c :: rest =>
    match m (c :: rest) with
    | none => c :: reSubP m fuel rest
    | some (k, repl) => repl ++ reSubP m fuel (rest.drop (k - 1))

/-- The loop body of `replace_markdown_link`: walk the `url_to_footnote`
items in insertion order; on the first stored url that fuzzily matches
(`stored_url in url or url in stored_url`) return the footnote marker;
a non-string stored url raises `TypeError` (Python `in` on a string
requires a string operand); if no entry matches, return the link text. -/
def mdCallback (mapping : List (PyVal × Nat)) (txt url : List Char) :
    Except PyErr (List Char) :=
  match mapping with
  | [] => .ok txt
  | (stored, num) :: rest =>
    match stored with
    | .pyStr s =>
      if hasSub s.data url || hasSub url s.data then
        .ok ("[" ++ toString num ++ "]").data
      else
        mdCallback rest txt url
    | _ => .error (.typeErr "in <string> requires string as left operand")

/-- Matcher for pass 1, pattern `\[([^\]]+)\]\(([^)]+)\)` with the
`replace_markdown_link` callback. -/
def mdLinkMatch (mapping : List (PyVal × Nat)) (s : List Char) :
    Except PyErr (Option (Nat × List Char)) :=
  match s with
  | '[' :: rest =>
    let txt := rest.takeWhile (fun c => c != ']')
    let r1 := rest.dropWhile (fun c => c != ']')
    if txt.isEmpty then .ok none else
    match r1 with
    | ']' :: '(' :: r2 =>
      let url := r2.takeWhile (fun c => c != ')')
      let r3 := r2.dropWhile (fun c => c != ')')
      if url.isEmpty then .ok none else
      match r3 with
      | ')' :: _ =>
        match mdCallback mapping txt url with
        | .error e => .error e
        | .ok repl => .ok (some (1 + txt.length + 2 + url.length + 1, repl))
      | _ => .ok none
    | _ => .ok none
  | _ => .ok none

/-- Matcher for pass 2, pattern `\(\s*(\[[0-9]+\])\s*\)` replaced by the
group (strips the surrounding parentheses). -/
def parenFootnoteMatch (s : List Char) : Option (Nat × List Char) :=
  match s with
  | '(' :: rest =>
    let ws1 := rest.takeWhile isPySpace
    match rest.dropWhile isPySpace with
    | '[' :: r2 =>
      let ds := r2.takeWhile Char.isDigit
      if ds.isEmpty then none else
      match r2.dropWhile Char.isDigit with
      | ']' :: r4 =>
        let ws2 := r4.takeWhile isPySpace
        match r4.dropWhile isPySpace with
        | ')' :: _ =>
          some (1 + ws1.length + 1 + ds.length + 1 + ws2.length + 1,
                '[' :: (ds ++ [']']))
        | _ => none
      | _ => none
    | _ => none
  | _ => none

/-- Match `https?://` at the head: returns the number of characters the
scheme consumed and the remainder (greedy optional `s` with backtrack). -/
def schemeMatch (s : List Char) : Option (Nat × List Char) :=
  if leadsWith ['h', 't', 't', 'p'] s then
    let s1 := s.drop 4
    if leadsWith ['s', ':', '/', '/'] s1 then some (8, s1.drop 4)
    else if leadsWith [':', '/', '/'] s1 then some (7, s1.drop 3)
    else none
  else none

/-- Match `https?://[^)]+` at the head: scheme then a nonempty run of
non-`)` characters. -/
def urlBodyMatch (s : List Char) : Option (Nat × List Char) :=
  match schemeMatch s with
  | none => none
  | some (n, r) =>
    let u := r.takeWhile (fun c => c != ')')
    if u.isEmpty then none
    else some (n + u.length, r.dropWhile (fun c => c != ')'))

/-- Matcher for pass 3, pattern `\(\(https?://[^)]+\)\)` deleted. -/
def dblParenUrlMatch (s : List Char) : Option (Nat × List Char) :=
  match s with
  | '(' :: '(' :: rest =>
    match urlBodyMatch rest with
    | some (n, r) =>
      match r with
      | ')' :: ')' :: _ => some (2 + n + 2, [])
      | _ => none
    | none => none
  | _ => none

/-- Matcher for pass 4, pattern `\(https?://[^)]+\)` deleted. -/
def parenUrlMatch (s : List Char) : Option (Nat × List Char) :=
  match s with
  | '(' :: rest =>
    match urlBodyMatch rest with
    | some (n, r) =>
      match r with
      | ')' :: _ => some (1 + n + 1, [])
      | _ => none
    | none => none
  | _ => none

/-- Matcher for pass 5, pattern `  +` (a run of two or more spaces)
replaced by a single space. -/
def multiSpaceMatch (s : List Char) : Option (Nat × List Char) :=
  match s with
  | ' ' :: ' ' :: rest =>
    some (2 + (rest.takeWhile (fun c => c == ' ')).length, [' '])
  | _ => none

/-- Matcher for pass 6, pattern ` ([.,;:!?])` (space before punctuation)
replaced by the punctuation alone. -/
def spacePunctMatch (s : List Char) : Option (Nat × List Char) :=
  match s with
  | ' ' :: p :: _ =>
    if p == '.' || p == ',' || p == ';' || p == ':' || p == '!' || p == '?' then
      some (2, [p])
    else none
  | _ => none

/-- `OpenAIClient._clean_inline_citations`: the six `re.sub` passes in
source order, then `strip()`.  Fails only if the markdown-link callback
raises (a non-string stored url). -/
def clean_inline_citations (text : String)
    (url_to_footnote : List (PyVal × Nat)) : Except PyErr String :=
  let l0 := text.data
  match reSubF (mdLinkMatch url_to_footnote) l0.length l0 with
  | .error e => .error e
  | .ok l1 =>
    let l2 := reSubP parenFootnoteMatch l1.length l1
    let l3 := reSubP dblParenUrlMatch l2.length l2
    let l4 := reSubP parenUrlMatch l3.length l3
    let l5 := reSubP multiSpaceMatch l4.length l4
    let l6 := reSubP spacePunctMatch l5.length l5
    .ok (String.mk (stripChars l6))

/-!
### Result data model (`Citation`, `CommentaryResult`) and `_parse_response`
-/

/-- `Citation` dataclass.  The annotations in a payload are untyped, so
the runtime field values are arbitrary Python values. -/
structure Citation where
  url : PyVal
  title : PyVal := .pyStr ""
deriving Repr

/-- `CommentaryResult` dataclass.  Every constructor in the source fills
`commentary`/`error_message` with genuine strings, so those fields are
typed `String`. -/
structure CommentaryResult where
  ticker : String
  security_name : String
  commentary : String
  citations : List Citation
  success : Bool := true
  error_message : String := ""
  request_key : String := ""
deriving Repr

/-- A failure `CommentaryResult` with empty commentary and citations. -/
def mkFailResult (t n msg : String) : CommentaryResult :=
  { ticker := t, security_name := n, commentary := "", citations := [],
    success := false, error_message := msg }

/-- Inner loop of the content scan: find the first content item whose
`type` equals `typ`, read its `text` and `annotations`, and stop
(`break`); otherwise leave the scanned state unchanged. -/
def innerScan (typ : String) (citems : List PyVal) (content anns : PyVal) :
    Except PyErr (PyVal × PyVal) :=
  match citems with
  | [] => .ok (content, anns)
  | ci :: rest =>
    match pyGet ci "type" .pyNone with
    | .error e => .error e
    | .ok t =>
      if eqStr t typ then
        match pyGet ci "text" (.pyStr ""), pyGet ci "annotations" (.pyList []) with
        | .error e, _ => .error e
        | .ok _, .error e => .error e
        | .ok c, .ok a => .ok (c, a)
      else innerScan typ rest content anns

/-- Outer loop of the content scan over `output` items: for each item of
`type == "message"`, run the inner scan over its `content` list; stop as
soon as the scanned content is truthy. -/
def contentScan (typ : String) (items : List PyVal) (content anns : PyVal) :
    Except PyErr (PyVal × PyVal) :=
  match items with
  | [] => .ok (content, anns)
  | item :: rest =>
    match pyGet item "type" .pyNone with
    | .error e => .error e
    | .ok t =>
      if eqStr t "message" then
        match pyGet item "content" (.pyList []) with
        | .error e => .error e
        | .ok citems =>
          match pyIter citems with
          | .error e => .error e
          | .ok citemsL =>
            match innerScan typ citemsL content anns with
            | .error e => .error e
            | .ok (c, a) =>
              if pyTruthy c then .ok (c, a) else contentScan typ rest c a
      else contentScan typ rest content anns

/-- The list comprehension
`[ann for ann in annotations if ann.get("type") == "url_citation"]`;
a non-dict element has no `get` and raises `AttributeError`. -/
def filterUrlAnns : List PyVal → Except PyErr (List Pdict)
  | [] => .ok []
  | v :: rest =>
    match v with
    | .pyDict kvs =>
      match filterUrlAnns rest with
      | .error e => .error e
      | .ok tail =>
        if eqStr (dictGetD kvs "type" .pyNone) "url_citation" then
          .ok (kvs :: tail)
        else
          .ok tail
    | .pyNone => .error (.attrErr "NoneType object has no attribute get")
    | .pyBool _ => .error (.attrErr "bool object has no attribute get")
    | .pyInt _ => .error (.attrErr "int object has no attribute get")
    | .pyStr _ => .error (.attrErr "str object has no attribute get")
    | .pyList _ => .error (.attrErr "list object has no attribute get")

/-- Stable insertion: place `x` before the first element it is `le` to.
Inserting the earlier-submitted element in front of equals makes the
overall sort stable, matching Python's stable `list.sort`. -/
def sInsert (le : α → α → Bool) (x : α) : List α → List α
  | [] => [x]
  | y :: ys => if le x y then x :: y :: ys else y :: sInsert le x ys

/-- Stable sort by a boolean total preorder; a stable sort's output is
unique, so this agrees with Python's Timsort wherever the keys are
pairwise comparable. -/
def sSort (le : α → α → Bool) : List α → List α
  | [] => []
  | x :: xs => sInsert le x (sSort le xs)

/-- The sort key `lambda x: x.get("start_index", 0)`. -/
def sortKeyOf (kvs : Pdict) : PyVal := dictGetD kvs "start_index" (.pyInt 0)

/-- String view of a sort key (meaningful only when the key is a string). -/
def sortKeyStr (kvs : Pdict) : String :=
  match sortKeyOf kvs with
  | .pyStr s => s
  | _ => ""

/-- `url_annotations.sort(key=lambda x: x.get("start_index", 0))`.
CPython's sort performs no comparison on lists of length `≤ 1` and raises
`TypeError` at the first cross-type comparison otherwise; a key set mixing
numbers and strings (or containing an unorderable value) always triggers
one, while homogeneous numeric or homogeneous string keys sort stably.
(List-valued keys are modelled as unorderable; no claim touches that
corner.) -/
def sortUrlAnns (anns : List Pdict) : Except PyErr (List Pdict) :=
  if anns.length ≤ 1 then .ok anns
  else
    let keys := anns.map sortKeyOf
    if keys.all fun k => (pyNumVal k).isSome then
      .ok (sSort (fun a b =>
        decide (((pyNumVal (sortKeyOf a)).getD 0) ≤ ((pyNumVal (sortKeyOf b)).getD 0))) anns)
    else if keys.all fun k => match k with | .pyStr _ => true | _ => false then
      .ok (sSort (fun a b => decide (sortKeyStr a ≤ sortKeyStr b)) anns)
    else .error (.typeErr "< not supported between instances of mixed key types")

/-- The citation de-duplication loop: walk the sorted url annotations,
keep the first occurrence of each truthy url, number unique urls from 1
in first-seen order, and record the url-to-footnote mapping.  The `seen`
set membership test uses Python `==` on hashables and raises `TypeError`
on an unhashable (list/dict) url. -/
def buildCits : List Pdict → List Citation → List PyVal → List (PyVal × Nat) →
    Except PyErr (List Citation × List (PyVal × Nat))
  | [], cits, _, m => .ok (cits, m)
  | ann :: rest, cits, seen, m =>
    let url := dictGetD ann "url" (.pyStr "")
    if pyTruthy url then
      if pyHashable url then
        if seen.any fun v => pyEqH url v then
          buildCits rest cits seen m
        else
          buildCits rest
            (cits ++ [{ url := url, title := dictGetD ann "title" (.pyStr "") }])
            (url :: seen) (m ++ [(url, cits.length + 1)])
      else .error (.typeErr "unhashable type")
    else buildCits rest cits seen m

/-- `content.strip()`: only strings have `strip`. -/
def pyStripVal (v : PyVal) : Except PyErr String :=
  match v with
  | .pyStr s => .ok (pyStrip s)
  | _ => .error (.attrErr "object has no attribute strip")

/-- The citation-extraction stage of `_parse_response`: the url-citation
comprehension, the stable sort by `start_index`, and the first-seen
de-duplication, yielding the ordered `citations` and the
`url_to_footnote` mapping. -/
def extract_citations (annsL : List PyVal) :
    Except PyErr (List Citation × List (PyVal × Nat)) :=
  match filterUrlAnns annsL with
  | .error e => .error e
  | .ok urlAnns =>
    match sortUrlAnns urlAnns with
    | .error e => .error e
    | .ok sorted => buildCits sorted [] [] []

/-- The body of `_parse_response`'s `try` block: content extraction with
the `"text"` fallback pass, the no-content failure, citation extraction,
text cleanup, and the empty-commentary failure. -/
def parseInner (response : Pdict) (ticker security_name : String) :
    Except PyErr CommentaryResult :=
  match pyIter (dictGetD response "output" (.pyList [])) with
  | .error e => .error e
  | .ok items =>
    match contentScan "output_text" items (.pyStr "") (.pyList []) with
    | .error e => .error e
    | .ok (c1, a1) =>
      match
        (if pyTruthy c1 then .ok (c1, a1)
         else contentScan "text" items c1 a1 : Except PyErr (PyVal × PyVal)) with
      | .error e => .error e
      | .ok (c2, a2) =>
        if ¬ pyTruthy c2 then
          .ok (mkFailResult ticker security_name
                ("No content in response: " ++ pyStrOfDict response))
        else
          match pyIter a2 with
          | .error e => .error e
          | .ok annsL =>
            match extract_citations annsL with
            | .error e => .error e
            | .ok (cits, mapping) =>
              match pyStripVal c2 with
              | .error e => .error e
              | .ok contentS =>
                match clean_inline_citations contentS mapping with
                | .error e => .error e
                | .ok commentary =>
                  if commentary == "" then
                    .ok (mkFailResult ticker security_name
                          "Empty commentary in response")
                  else
                    .ok { ticker, security_name, commentary,
                          citations := cits, success := true }

/-- `OpenAIClient._parse_response`: the `try` body with every modelled
exception captured by the `except Exception` clause. -/
def parse_response (response : Pdict) (ticker security_name : String) :
    CommentaryResult :=
  match parseInner response ticker security_name with
  | .ok r => r
  | .error e =>
    mkFailResult ticker security_name ("Failed to parse response: " ++ e.text)

/-!
### `_calculate_backoff`, `_poll_response_status`, `_make_request`

Wall-clock durations and floats are modelled as rationals.  The transport
is a deterministic script: one `PostOutcome` per POST the executor issues,
each carrying the poll trace its GETs would see.  `random.uniform(-j, j)`
is one explicit draw per attempt.
-/

/-- `RateLimitConfig` dataclass with the source defaults
(`jitter_factor = 0.2`). -/
structure RateLimitConfig where
  max_concurrent : Nat := 20
  initial_backoff : Rat := 1
  max_backoff : Rat := 60
  jitter_factor : Rat := 1 / 5

/-- `OpenAIClient._calculate_backoff`: exponential delay capped at
`max_backoff`, plus the jitter draw `u`, which models
`random.uniform(-jitter, jitter)` for `jitter = capped * jitter_factor`. -/
def calculate_backoff (rl : RateLimitConfig) (attempt : Nat) (u : Rat) : Rat :=
  min (rl.initial_backoff * 2 ^ attempt) rl.max_backoff + u

/-- The `timeout_map` lookup with default `300.0`
(low 2 min, medium 5 min, high 10 min). -/
def timeout_for_level (lvl : String) : Rat :=
  if lvl == "low" then 120
  else if lvl == "medium" then 300
  else if lvl == "high" then 600
  else 300

/-- Outcome of one polled GET: a response with its HTTP status and decoded
body, a timeout (`httpx.TimeoutException`), or a network error
(`httpx.RequestError`). -/
inductive GetOutcome where
  | ok (httpStatus : Nat) (body : Pdict)
  | timeout
  | netErr (msg : String)

/-- One iteration of the poll trace: the wall time the iteration takes
(GET duration plus the poll-interval sleep) and the GET outcome. -/
structure PollStep where
  dt : Rat
  out : GetOutcome

/-- How `_poll_response_status` can fail: `timedOut` covers both the
loop's own max-wait check and a GET timeout (both raise
`httpx.TimeoutException`); `http`/`net` are errors rethrown from a GET;
`scriptEnded` is a modelling artifact for a trace shorter than the run. -/
inductive PollErr where
  | timedOut
  | http (code : Nat)
  | net (msg : String)
  | scriptEnded
deriving Repr, DecidableEq

/-- `OpenAIClient._poll_response_status`: raise a timeout once elapsed
time exceeds `max_wait`; otherwise GET the status, rethrow GET failures
(`raise_for_status` raises on any non-2xx), return the body on a terminal
status, and otherwise sleep and continue. -/
def poll_response_status (maxWait : Rat) : Rat → List PollStep → Except PollErr Pdict
  | elapsed, steps =>
    if elapsed > maxWait then .error .timedOut
    else
      match steps with
      | [] => .error .scriptEnded
      | step :: rest =>
        match step.out with
        | .timeout => .error .timedOut
        | .netErr m => .error (.net m)
        | .ok code body =>
          if code < 200 || 299 < code then .error (.http code)
          else
            let st := dictGetD body "status" (.pyStr "")
            if eqStrAny st ["completed", "succeeded"] then .ok body
            else if eqStrAny st ["failed", "cancelled", "expired"] then .ok body
            else poll_response_status maxWait (elapsed + step.dt) rest

/-- Outcome of one POST to the submission endpoint.  `retryAfter` is the
already-parsed `Retry-After` header, when present.  `poll` is the poll
trace used if this response reports a queued/running job. -/
inductive PostOutcome where
  | resp (httpStatus : Nat) (retryAfter : Option Rat) (body : Pdict)
      (poll : List PollStep)
  | timeout
  | netErr (msg : String)

/-- How `_make_request` can fail: timeout (never retried), an HTTP status
error or network error that exhausted the retry budget, the final
`raise Exception("Max retries exceeded")`, or the trace artifact. -/
inductive MRErr where
  | timedOut
  | http (code : Nat)
  | net (msg : String)
  | maxRetries
  | scriptEnded
deriving Repr, DecidableEq

/-- Observable trace of one `_make_request` call: its outcome, how many
POSTs it issued, and the durations it slept (429 waits and backoffs, in
order). -/
structure MRTrace where
  out : Except MRErr Pdict
  posts : Nat
  sleeps : List Rat
deriving Repr

/-- Record one issued POST followed by a sleep of `w` before the rest of
the trace. -/
def afterRetry (w : Rat) (t : MRTrace) : MRTrace :=
  { out := t.out, posts := t.posts + 1, sleeps := w :: t.sleeps }

/-- The retry loop of `OpenAIClient._make_request`
(`for attempt in range(5)`), entered at iteration `attempt`, consuming
one scripted POST outcome per iteration:

* HTTP 429: sleep `Retry-After` if present, else the backoff for this
  attempt, then retry (even on the last attempt, after which the loop
  exits and raises "Max retries exceeded");
* a timeout (from the POST or from polling): re-raise, no retry;
* any other non-2xx, or a network error, or a non-2xx/network error
  rethrown from polling: retry with backoff while `attempt < 4`, else
  re-raise;
* a 2xx whose body carries a truthy `id` and a queued/in-progress/running
  `status`: poll to completion with `max_wait` equal to the request
  timeout;
* any other 2xx: return the body. -/
def make_request_loop (rl : RateLimitConfig) (draws : Nat → Rat)
    (timeout : Rat) : Nat → List PostOutcome → MRTrace
  | attempt, script =>
    if attempt ≥ 5 then { out := .error .maxRetries, posts := 0, sleeps := [] }
    else
      match script with
      | [] => { out := .error .scriptEnded, posts := 0, sleeps := [] }
      | o :: rest =>
        match o with
        | .timeout => { out := .error .timedOut, posts := 1, sleeps := [] }
        | .netErr m =>
          if attempt < 4 then
            afterRetry (calculate_backoff rl attempt (draws attempt))
              (make_request_loop rl draws timeout (attempt + 1) rest)
          else { out := .error (.net m), posts := 1, sleeps := [] }
        | .resp code ra body poll =>
          if code == 429 then
            afterRetry (ra.getD (calculate_backoff rl attempt (draws attempt)))
              (make_request_loop rl draws timeout (attempt + 1) rest)
          else if code < 200 || 299 < code then
            if attempt < 4 then
              afterRetry (calculate_backoff rl attempt (draws attempt))
                (make_request_loop rl draws timeout (attempt + 1) rest)
            else { out := .error (.http code), posts := 1, sleeps := [] }
          else
            let st := dictGetD body "status" (.pyStr "")
            let idv := dictGetD body "id" (.pyStr "")
            if pyTruthy idv && eqStrAny st ["queued", "in_progress", "running"] then
              match poll_response_status timeout 0 poll with
              | .ok final => { out := .ok final, posts := 1, sleeps := [] }
              | .error .timedOut =>
                { out := .error .timedOut, posts := 1, sleeps := [] }
              | .error (.http c) =>
                if attempt < 4 then
                  afterRetry (calculate_backoff rl attempt (draws attempt))
                    (make_request_loop rl draws timeout (attempt + 1) rest)
                else { out := .error (.http c), posts := 1, sleeps := [] }
              | .error (.net m) =>
                if attempt < 4 then
                  afterRetry (calculate_backoff rl attempt (draws attempt))
                    (make_request_loop rl draws timeout (attempt + 1) rest)
                else { out := .error (.net m), posts := 1, sleeps := [] }
              | .error .scriptEnded =>
                { out := .error .scriptEnded, posts := 1, sleeps := [] }
            else { out := .ok body, posts := 1, sleeps := [] }

/-- `OpenAIClient._make_request`: select the timeout from the thinking
level and run the retry loop from attempt 0. -/
def make_request (rl : RateLimitConfig) (draws : Nat → Rat)
    (thinking_level : String) (script : List PostOutcome) : MRTrace :=
  make_request_loop rl draws (timeout_for_level thinking_level) 0 script

/-!
### `generate_commentary` and `generate_commentary_batch`

`generate_commentary` is driven by the outcome of its awaited
`_make_request` call, abstracted as `Except String Pdict` carrying
`str(e)` of any raised exception.  The batch orchestrator's
`asyncio.gather(*tasks, return_exceptions=True)` stores each task's
outcome at the task's submission index as tasks complete; completion
order is an explicit index list.
-/

/-- `OpenAIClient.generate_commentary`: on an exception from the request,
a failure result with the exception text; otherwise the parsed result
with the request key attached and the caller-level citation requirement
applied (a structurally successful result without citations is downgraded
to a failure). -/
def generate_commentary (ticker security_name request_key : String)
    (mr : Except String Pdict) : CommentaryResult :=
  match mr with
  | .error e =>
    { ticker, security_name, commentary := "", citations := [],
      success := false, error_message := "API request failed: " ++ e,
      request_key }
  | .ok payload =>
    let r0 := parse_response payload ticker security_name
    let r := { r0 with request_key := request_key }
    if r.success && r.citations.isEmpty then
      { r with
        success := false
        error_message := "No citations found in response (citations are required)" }
    else r

/-- A batch request dict with the keys `generate_commentary_batch`
reads (assumed present; a missing key would abort the whole batch with
`KeyError` rather than return). -/
structure BatchReq where
  ticker : String
  security_name : String
  prompt : String := ""
  portcode : String := ""

/-- The conversion loop at the end of `generate_commentary_batch`: an
exception captured by `gather` becomes a failure result carrying
`str(result)` (note: no prefix, and `request_key` is left empty). -/
def convertResult (req : BatchReq) (r : Except String CommentaryResult) :
    CommentaryResult :=
  match r with
  | .ok res => res
  | .error msg =>
    { ticker := req.ticker, security_name := req.security_name,
      commentary := "", citations := [], success := false,
      error_message := msg }

/-- Outcome of task `i` as `gather` sees it: either an exception that
escaped the task (`esc`, e.g. a cancellation — `generate_commentary`
catches `Exception` but not `BaseException`), or the task's returned
`CommentaryResult`. -/
def taskOutcome (req : BatchReq) (rk : String) (esc : Option String)
    (mr : Except String Pdict) : Except String CommentaryResult :=
  match esc with
  | some e => .error e
  | none => .ok (generate_commentary req.ticker req.security_name rk mr)

/-- `asyncio.gather` bookkeeping: process completions in `order`, storing
task `i`'s outcome at slot `i`. -/
def gatherRun (f : Nat → Except String CommentaryResult) :
    List Nat → List (Except String CommentaryResult) →
    List (Except String CommentaryResult)
  | [], slots => slots
  | i :: order, slots => gatherRun f order (slots.set i (f i))

/-- `asyncio.gather(*tasks, return_exceptions=True)` over `n` tasks
completing in `order`: every slot starts as a placeholder and is
overwritten by its task's outcome when that task completes. -/
def gatherModel (n : Nat) (order : List Nat)
    (f : Nat → Except String CommentaryResult) :
    List (Except String CommentaryResult) :=
  gatherRun f order (List.replicate n (.error "pending"))

/-- Outcome of the task launched for slot `i` of the batch. -/
def batchTask (requests : List BatchReq) (rk : Nat → String)
    (esc : Nat → Option String) (mr : Nat → Except String Pdict)
    (i : Nat) : Except String CommentaryResult :=
  match requests[i]? with
  | some req => taskOutcome req (rk i) (esc i) (mr i)
  | none => .error "index out of range"

/-- `OpenAIClient.generate_commentary_batch`: launch one task per
request, gather outcomes by submission index as completions arrive in
`order`, then convert exceptions to failure results positionally. -/
def generate_commentary_batch (requests : List BatchReq) (rk : Nat → String)
    (esc : Nat → Option String) (mr : Nat → Except String Pdict)
    (order : List Nat) : List CommentaryResult :=
  List.zipWith convertResult requests
    (gatherModel requests.length order (batchTask requests rk esc mr))

/-!
### Reasoning-level table (`src/gui.py`) and spec-modelled pieces

The source tree carries an older revision of `openai_client.py`: its
tests (`tests/test_openai_client.py`) and its GUI caller pass a
`cancel_event` and rely on `OpenAIClient._normalize_thinking_level`,
neither of which appears in the file.  Those two behaviours are modelled
from the specification below and marked as such.
-/

/-- Python `s.startswith(pre)` (kernel-computable form of
`String.startsWith`). -/
def strStarts (s pre : String) : Bool := leadsWith pre.data s.data

/-- `get_reasoning_levels_for_model` from `src/gui.py`: supported
reasoning-effort levels per model-name prefix. -/
def get_reasoning_levels_for_model (model_id : String) : List String :=
  if strStarts model_id "gpt-5.2-pro" then ["medium", "high", "xhigh"]
  else if strStarts model_id "gpt-5.2" then ["none", "low", "medium", "high", "xhigh"]
  else ["low", "medium", "high"]

/-- Modelled from the spec: `OpenAIClient._normalize_thinking_level` is
missing from the source tree (only `tests/test_openai_client.py`
exercises it).  Spec section 4.5: a requested level supported by the
model is kept; otherwise the model's "none"/lowest level is used if
available, else "medium".  The per-model level sets are the ones
`get_reasoning_levels_for_model` defines, which the spec requires to be
applied identically in the client and the UI. -/
def normalize_thinking_level (model_id level : String) : String :=
  let ls := get_reasoning_levels_for_model model_id
  if level ∈ ls then level
  else if "none" ∈ ls then "none"
  else "medium"

/-- Either a cooperative cancellation or a completed computation. -/
inductive CancelOr (α : Type) where
  | cancelled : CancelOr α
  | done (a : α) : CancelOr α

/-- Modelled from the spec: the `cancel_event` parameter of the newer
`_make_request` is missing from the source tree (only its tests and the
GUI caller reference it).  Spec section 4.2 step 1: if the cancellation
signal is already set, fail immediately with a cancellation error and
make no network call; otherwise the executor behaves as the retry loop
does. -/
def make_request_with_cancel (cancel : Bool) (rl : RateLimitConfig)
    (draws : Nat → Rat) (thinking_level : String)
    (script : List PostOutcome) : CancelOr MRTrace :=
  if cancel then .cancelled
  else .done (make_request rl draws thinking_level script)

/-- POSTs issued by a possibly-cancelled executor call: a call that fails
with the cancellation error issued none. -/
def cancelPosts : CancelOr MRTrace → Nat
  | .cancelled => 0
  | .done t => t.posts

/-- Modelled from the spec: the newer `generate_commentary_batch` takes a
`cancel_event` and raises `asyncio.CancelledError` for the whole batch
when it is set (spec sections 4.4 step 3 and 8).  A signal set before any
task starts means no task acquires the admission gate and no executor
call is issued; otherwise every task runs its executor call. -/
def batch_with_cancel (cancel : Bool) (requests : List BatchReq)
    (rl : RateLimitConfig) (draws : Nat → Nat → Rat) (thinking_level : String)
    (scripts : Nat → List PostOutcome) : CancelOr (List MRTrace) :=
  if cancel then .cancelled
  else .done ((List.range requests.length).map fun i =>
    make_request rl (draws i) thinking_level (scripts i))

/-- Total POSTs attempted by a possibly-cancelled batch. -/
def batchPosts : CancelOr (List MRTrace) → Nat
  | .cancelled => 0
  | .done ts => (ts.map MRTrace.posts).sum

/-- Dict lookup in the `url_to_footnote` mapping (Python `==` on
hashable keys). -/
def mlookup : List (PyVal × Nat) → PyVal → Option Nat
  | [], _ => none
  | (k, n) :: rest, u => if pyEqH k u then some n else mlookup rest u

/-- The footnote mapping determined by a citation list: the `i`-th
citation's url maps to footnote `i + 1`. -/
def footnoteMap (cits : List Citation) : List (PyVal × Nat) :=
  cits.enum.map fun p => (p.2.url, p.1 + 1)

/-- Hash-key view of a hashable value: numbers by numeric value, strings,
and `None`; unhashables have no key. -/
def pyKeyOf (v : PyVal) : Option (Int ⊕ String ⊕ Unit) :=
  match v with
  | .pyBool b => some (.inl (cond b 1 0))
  | .pyInt n => some (.inl n)
  | .pyStr s => some (.inr (.inl s))
  | .pyNone => some (.inr (.inr ()))
  | _ => none

/-- Truthiness of a hash key. -/
def keyTruthy : Int ⊕ String ⊕ Unit → Bool
  | .inl n => n != 0
  | .inr (.inl s) => s != ""
  | .inr (.inr _) => false

/-- url of an annotation as the dedup loop reads it. -/
def annUrl (a : Pdict) : PyVal := dictGetD a "url" (.pyStr "")

/-- Concrete annotation list with a duplicated url, for exercising the
citation properties. -/
def annsW : List PyVal :=
  [.pyDict [("type", .pyStr "url_citation"), ("url", .pyStr "https://a.com/x"),
            ("title", .pyStr "A"), ("start_index", .pyInt 5)],
   .pyDict [("type", .pyStr "url_citation"), ("url", .pyStr "https://b.com"),
            ("title", .pyStr "B"), ("start_index", .pyInt 1)],
   .pyDict [("type", .pyStr "url_citation"), ("url", .pyStr "https://a.com/x"),
            ("title", .pyStr "A2"), ("start_index", .pyInt 9)]]

/-- The citations extracted from `annsW`. -/
def citsW : List Citation :=
  [{ url := .pyStr "https://b.com", title := .pyStr "B" },
   { url := .pyStr "https://a.com/x", title := .pyStr "A" }]

/-- The footnote mapping extracted from `annsW`. -/
def mW : List (PyVal × Nat) :=
  [(.pyStr "https://b.com", 1), (.pyStr "https://a.com/x", 2)]

/-!
### Helper lemmas
-/

/-- a string with a nonempty first part is nonempty. -/
theorem strcat_ne_empty (a b : String) (h : a.data ≠ []) :
    a ++ b ≠ "" := by
  intro hc
  apply h
  have hd := congrArg String.data hc
  rw [String.data_append] at hd
  exact (List.append_eq_nil.mp hd).1

/-- the result of normalization is always a supported level. -/
theorem normalize_mem (model_id level : String) :
    normalize_thinking_level model_id level ∈
      get_reasoning_levels_for_model model_id := by
  unfold normalize_thinking_level
  by_cases h1 : level ∈ get_reasoning_levels_for_model model_id
  · simp [h1]
  · simp only [h1, if_false]
    by_cases h2 : "none" ∈ get_reasoning_levels_for_model model_id
    · simp [h2]
    · simp only [h2, if_false]
      unfold get_reasoning_levels_for_model
      split <;> try split
      all_goals simp

/-- gather bookkeeping preserves the slot count. -/
theorem gatherRun_length (f : Nat → Except String CommentaryResult) :
    ∀ (order : List Nat) (slots : List (Except String CommentaryResult)),
      (gatherRun f order slots).length = slots.length := by
  intro order
  induction order with
  | nil => intro slots; rfl
  | cons j rest ih =>
    intro slots
    simp [gatherRun, ih, List.length_set]

/-- gather bookkeeping leaves untouched slots alone. -/
theorem gatherRun_getElem_not_mem (f : Nat → Except String CommentaryResult) :
    ∀ (order : List Nat) (slots : List (Except String CommentaryResult)) (i : Nat),
      i ∉ order → (gatherRun f order slots)[i]? = slots[i]? := by
  intro order
  induction order with
  | nil => intro slots i _; rfl
  | cons j rest ih =>
    intro slots i hni
    have hij : j ≠ i := fun h => hni (h ▸ List.mem_cons_self j rest)
    have hnr : i ∉ rest := fun h => hni (List.mem_cons_of_mem j h)
    rw [gatherRun, ih _ _ hnr, List.getElem?_set]
    simp [hij]

/-- a completed task's slot holds that task's outcome. -/
theorem gatherRun_getElem_mem (f : Nat → Except String CommentaryResult) :
    ∀ (order : List Nat) (slots : List (Except String CommentaryResult)) (i : Nat),
      i ∈ order → i < slots.length → (gatherRun f order slots)[i]? = some (f i) := by
  intro order
  induction order with
  | nil => intro slots i h _; cases h
  | cons j rest ih =>
    intro slots i hm hlt
    by_cases hr : i ∈ rest
    · rw [gatherRun]
      exact ih _ _ hr (by simpa [List.length_set] using hlt)
    · have hij : i = j := by
        rcases List.mem_cons.mp hm with h | h
        · exact h
        · exact absurd h hr
      subst hij
      rw [gatherRun, gatherRun_getElem_not_mem f rest _ _ hr, List.getElem?_set]
      simp [hlt]

/-- once every task has completed, the gathered list is the outcomes in
submission order, whatever the completion order was. -/
theorem gatherModel_eq_map (n : Nat) (order : List Nat)
    (f : Nat → Except String CommentaryResult)
    (hperm : order.Perm (List.range n)) :
    gatherModel n order f = (List.range n).map f := by
  apply List.ext_getElem?
  intro i
  by_cases hi : i < n
  · have hmem : i ∈ order := hperm.mem_iff.mpr (List.mem_range.mpr hi)
    rw [gatherModel, gatherRun_getElem_mem f order _ i hmem
        (by simpa [List.length_replicate] using hi),
      List.getElem?_map, List.getElem?_range hi]
    rfl
  · have hmem : i ∉ order := fun h =>
      hi (List.mem_range.mp (hperm.mem_iff.mp h))
    rw [gatherModel, gatherRun_getElem_not_mem f order _ i hmem]
    have h1 : (List.replicate n (Except.error "pending" :
        Except String CommentaryResult))[i]? = none := by
      simp [List.getElem?_replicate, hi]
    have h2 : ((List.range n).map f)[i]? = none := by
      rw [List.getElem?_map]
      simp [List.getElem?_eq_none, hi, Nat.le_of_not_lt]
    rw [h1, h2]

/-- an element of a zipped list comes from a pair of elements. -/
theorem mem_zipWith_exists {α β γ : Type} {f : α → β → γ} :
    ∀ {as : List α} {bs : List β} {x : γ}, x ∈ List.zipWith f as bs →
      ∃ a b, a ∈ as ∧ b ∈ bs ∧ x = f a b := by
  intro as
  induction as with
  | nil => intro bs x hx; cases hx
  | cons a as ih =>
    intro bs x hx
    cases bs with
    | nil => cases hx
    | cons b bs =>
      rcases List.mem_cons.mp hx with rfl | hx'
      · exact ⟨a, b, List.mem_cons_self .., List.mem_cons_self .., rfl⟩
      · rcases ih hx' with ⟨a', b', ha, hb, rfl⟩
        exact ⟨a', b', List.mem_cons_of_mem _ ha, List.mem_cons_of_mem _ hb, rfl⟩

/-- every element the gather bookkeeping produces is an initial slot or
some task's outcome. -/
theorem gatherRun_mem (f : Nat → Except String CommentaryResult) :
    ∀ (order : List Nat) (slots : List (Except String CommentaryResult)) x,
      x ∈ gatherRun f order slots → x ∈ slots ∨ ∃ i, x = f i := by
  intro order
  induction order with
  | nil => intro slots x hx; exact Or.inl hx
  | cons j rest ih =>
    intro slots x hx
    rw [gatherRun] at hx
    rcases ih _ x hx with hx' | hi
    · rcases List.mem_or_eq_of_mem_set hx' with h | rfl
      · exact Or.inl h
      · exact Or.inr ⟨j, rfl⟩
    · exact Or.inr hi

/-- every result the parser's try-body returns carries the caller's
ticker and security name. -/
theorem parseInner_fields (resp : Pdict) (t n : String)
    (r : CommentaryResult) (h : parseInner resp t n = .ok r) :
    r.ticker = t ∧ r.security_name = n := by
  unfold parseInner at h
  repeat' split at h
  all_goals simp_all [mkFailResult]
  all_goals (subst h; exact ⟨rfl, rfl⟩)

/-- the parser always labels its result with the caller's identifiers. -/
theorem parse_response_fields (resp : Pdict) (t n : String) :
    (parse_response resp t n).ticker = t ∧
    (parse_response resp t n).security_name = n := by
  unfold parse_response
  split
  · exact parseInner_fields resp t n _ (by assumption)
  · exact ⟨rfl, rfl⟩

/-- `generate_commentary` carries the caller's identifying fields. -/
theorem generate_commentary_fields (t n rk : String)
    (mr : Except String Pdict) :
    (generate_commentary t n rk mr).ticker = t ∧
    (generate_commentary t n rk mr).security_name = n := by
  unfold generate_commentary
  match mr with
  | .error e => exact ⟨rfl, rfl⟩
  | .ok payload =>
    have h := parse_response_fields payload t n
    dsimp only
    split
    · exact h
    · exact h

/-- a batch per-item result carries its request's identifying fields. -/
theorem convert_task_fields (req : BatchReq) (rk : String)
    (esc : Option String) (mr : Except String Pdict) :
    (convertResult req (taskOutcome req rk esc mr)).ticker = req.ticker ∧
    (convertResult req (taskOutcome req rk esc mr)).security_name =
      req.security_name := by
  unfold convertResult taskOutcome
  match esc with
  | some e => exact ⟨rfl, rfl⟩
  | none => exact generate_commentary_fields req.ticker req.security_name rk mr

/-- every result the parser returns satisfies the success/error-message
equivalence. -/
theorem parse_response_success_iff (resp : Pdict) (t n : String) :
    ((parse_response resp t n).success = false ↔
      (parse_response resp t n).error_message ≠ "") := by
  have h1 : ("No content in response: " ++ pyStrOfDict resp) ≠ "" :=
    strcat_ne_empty _ _ (by decide)
  have h2 : ("Empty commentary in response" : String) ≠ "" := by decide
  unfold parse_response
  split
  · next r heq =>
    unfold parseInner at heq
    repeat' split at heq
    all_goals cases heq
    all_goals simp [mkFailResult, h1, h2]
  · next e heq =>
    have h3 : ("Failed to parse response: " ++ e.text) ≠ "" :=
      strcat_ne_empty _ _ (by decide)
    simp [mkFailResult, h3]

/-- the single-request path also satisfies the equivalence. -/
theorem generate_commentary_success_iff (t n rk : String)
    (mr : Except String Pdict) :
    ((generate_commentary t n rk mr).success = false ↔
      (generate_commentary t n rk mr).error_message ≠ "") := by
  unfold generate_commentary
  match mr with
  | .error e =>
    have h : ("API request failed: " ++ e) ≠ "" :=
      strcat_ne_empty _ _ (by decide)
    simp [h]
  | .ok payload =>
    have h := parse_response_success_iff payload t n
    dsimp only
    split
    · next hcond =>
      have h4 : ("No citations found in response (citations are required)" :
          String) ≠ "" := by decide
      simp [h4]
    · next hcond =>
      simpa using h

/-- hash equality holds exactly when the hash keys agree. -/
theorem pyEqH_iff_key (a b : PyVal) :
    pyEqH a b = true ↔ ∃ k, pyKeyOf a = some k ∧ pyKeyOf b = some k := by
  cases a <;> cases b <;> simp [pyEqH, pyNumVal, pyKeyOf] <;> exact eq_comm

/-- hash equality is symmetric. -/
theorem pyEqH_symm (a b : PyVal) : pyEqH a b = pyEqH b a := by
  by_cases h : pyEqH a b = true
  · obtain ⟨k, h1, h2⟩ := (pyEqH_iff_key a b).mp h
    rw [h, ((pyEqH_iff_key b a).mpr ⟨k, h2, h1⟩)]
  · by_cases h' : pyEqH b a = true
    · obtain ⟨k, h1, h2⟩ := (pyEqH_iff_key b a).mp h'
      exact absurd ((pyEqH_iff_key a b).mpr ⟨k, h2, h1⟩) h
    · rw [Bool.eq_false_iff.mpr h, Bool.eq_false_iff.mpr h']

/-- hash equality is transitive. -/
theorem pyEqH_trans {a b c : PyVal} (h1 : pyEqH a b = true)
    (h2 : pyEqH b c = true) : pyEqH a c = true := by
  obtain ⟨k, ha, hb⟩ := (pyEqH_iff_key a b).mp h1
  obtain ⟨k', hb', hc⟩ := (pyEqH_iff_key b c).mp h2
  rw [hb] at hb'
  cases hb'
  exact (pyEqH_iff_key a c).mpr ⟨k, ha, hc⟩

/-- hash equality is reflexive on hashable values. -/
theorem pyEqH_refl_of_hashable (a : PyVal) (h : pyHashable a = true) :
    pyEqH a a = true := by
  cases a <;> simp_all [pyHashable, pyEqH, pyNumVal]

/-- a value's truthiness is determined by its hash key. -/
theorem pyKey_truthy (a : PyVal) (k : Int ⊕ String ⊕ Unit)
    (h : pyKeyOf a = some k) : pyTruthy a = keyTruthy k := by
  cases a with
  | pyBool b => cases h; cases b <;> rfl
  | pyInt n => cases h; rfl
  | pyStr s => cases h; rfl
  | pyNone => cases h; rfl
  | pyList l => exact absurd h (by simp [pyKeyOf])
  | pyDict d => exact absurd h (by simp [pyKeyOf])

/-- hash-equal values are equally truthy. -/
theorem pyEqH_truthy {a b : PyVal} (h : pyEqH a b = true) :
    pyTruthy a = pyTruthy b := by
  obtain ⟨k, ha, hb⟩ := (pyEqH_iff_key a b).mp h
  rw [pyKey_truthy a k ha, pyKey_truthy b k hb]

/-- a pairwise-distinct list has exactly one element matching anything it
matches at all. -/
theorem countP_eq_one_of_any (u : PyVal) :
    ∀ (l : List PyVal),
      l.Pairwise (fun a b => pyEqH a b = false) →
      (l.any fun w => pyEqH u w) = true →
      (l.countP fun w => pyEqH u w) = 1 := by
  intro l
  induction l with
  | nil => intro _ h; cases h
  | cons w t ih =>
    intro hpw hany
    have hhead := (List.pairwise_cons.mp hpw).1
    have htail := (List.pairwise_cons.mp hpw).2
    rw [List.countP_cons]
    by_cases hu : pyEqH u w = true
    · have hzero : (t.countP fun x => pyEqH u x) = 0 := by
        rw [List.countP_eq_zero]
        intro x hx hux
        have hwx : pyEqH w x = true :=
          pyEqH_trans ((pyEqH_symm u w) ▸ hu) hux
        rw [hhead x hx] at hwx
        cases hwx
      simp [hzero, hu]
    · have hany' : (t.any fun x => pyEqH u x) = true := by
        rcases List.any_eq_true.mp hany with ⟨x, hx, hux⟩
        rcases List.mem_cons.mp hx with rfl | hx'
        · exact absurd hux hu
        · exact List.any_eq_true.mpr ⟨x, hx', hux⟩
      simp [ih htail hany', Bool.eq_false_iff.mpr hu]

/-- `footnoteMap` over an appended singleton. -/
theorem footnoteMap_append (l : List Citation) (c : Citation) :
    footnoteMap (l ++ [c]) = footnoteMap l ++ [(c.url, l.length + 1)] := by
  unfold footnoteMap
  rw [List.enum_append]
  simp [List.enumFrom]

/-- footnote lookup in the enumeration, shifted by `k`. -/
theorem mlookup_enumFrom :
    ∀ (cits : List Citation) (k : Nat),
      ((cits.map Citation.url).Pairwise fun a b => pyEqH a b = false) →
      (∀ c ∈ cits, pyHashable c.url = true) →
      ∀ i (h : i < cits.length),
        mlookup ((List.enumFrom k cits).map fun p => (p.2.url, p.1 + 1))
            (cits.get ⟨i, h⟩).url = some (k + i + 1) := by
  intro cits
  induction cits with
  | nil => intro k _ _ i h; cases h
  | cons c t ih =>
    intro k hpw hh i h
    have hhead := (List.pairwise_cons.mp hpw).1
    have htail := (List.pairwise_cons.mp hpw).2
    match i with
    | 0 =>
      have hrefl : pyEqH c.url c.url = true :=
        pyEqH_refl_of_hashable _ (hh c (List.mem_cons_self ..))
      simp [List.enumFrom, mlookup, hrefl]
    | Nat.succ j =>
      have hj : j < t.length := Nat.lt_of_succ_lt_succ h
      have hne : pyEqH c.url (t.get ⟨j, hj⟩).url = false := by
        apply hhead
        exact List.mem_map_of_mem Citation.url (t.get_mem ..)
      have := ih (k + 1) htail (fun x hx => hh x (List.mem_cons_of_mem _ hx)) j hj
      simp only [List.enumFrom, List.map_cons, mlookup, hne, List.get_cons_succ]
      rw [show k + (j + 1) + 1 = k + 1 + j + 1 by omega]
      exact this

/-- Invariant-carrying specification of the dedup fold `buildCits`:
starting from a consistent state, the fold only appends citations whose
urls come from the scanned annotations in order, keeps urls pairwise
distinct, truthy and hashable, keeps the mapping equal to the footnote
numbering of the citation list, and retains every matched url. -/
theorem buildCits_spec :
    ∀ (anns : List Pdict) (cits0 : List Citation) (seen0 : List PyVal)
      (m0 : List (PyVal × Nat)) (out : List Citation × List (PyVal × Nat)),
      buildCits anns cits0 seen0 m0 = .ok out →
      (∀ u, (seen0.any fun v => pyEqH u v) =
        ((cits0.map Citation.url).any fun v => pyEqH u v)) →
      (∀ c ∈ cits0, pyHashable c.url = true ∧ pyTruthy c.url = true) →
      ((cits0.map Citation.url).Pairwise fun a b => pyEqH a b = false) →
      m0 = footnoteMap cits0 →
      (∃ extra, out.1 = cits0 ++ extra ∧
        (extra.map Citation.url).Sublist (anns.map annUrl)) ∧
      (∀ c ∈ out.1, pyHashable c.url = true ∧ pyTruthy c.url = true) ∧
      ((out.1.map Citation.url).Pairwise fun a b => pyEqH a b = false) ∧
      out.2 = footnoteMap out.1 ∧
      (∀ u, pyTruthy u = true →
        ((anns.map annUrl).any fun w => pyEqH u w) = true →
        ((out.1.map Citation.url).any fun w => pyEqH u w) = true) := by
  intro anns
  induction anns with
  | nil =>
    intro cits0 seen0 m0 out hb hseen hh hpw hm
    cases hb
    refine ⟨⟨[], by simp⟩, hh, hpw, hm, ?_⟩
    intro u _ hany
    cases hany
  | cons ann rest ih =>
    intro cits0 seen0 m0 out hb hseen hh hpw hm
    rw [buildCits] at hb
    by_cases htr : pyTruthy (dictGetD ann "url" (.pyStr "")) = true
    · rw [if_pos htr] at hb
      by_cases hha : pyHashable (dictGetD ann "url" (.pyStr "")) = true
      · rw [if_pos hha] at hb
        by_cases hsn : (seen0.any fun v =>
            pyEqH (dictGetD ann "url" (.pyStr "")) v) = true
        · rw [if_pos hsn] at hb
          obtain ⟨⟨extra, he1, he2⟩, hh', hpw', hm', hpres⟩ :=
            ih cits0 seen0 m0 out hb hseen hh hpw hm
          refine ⟨⟨extra, he1, ?_⟩, hh', hpw', hm', ?_⟩
          · exact he2.cons _
          · intro u hu hany
            rcases List.any_eq_true.mp hany with ⟨w, hw, huw⟩
            rcases List.mem_cons.mp hw with rfl | hw'
            · have hseen' := hseen u
              have hsn' : (seen0.any fun v => pyEqH u v) = true := by
                rcases List.any_eq_true.mp hsn with ⟨v, hv, hwv⟩
                exact List.any_eq_true.mpr ⟨v, hv, pyEqH_trans huw hwv⟩
              rw [hseen'] at hsn'
              rcases List.any_eq_true.mp hsn' with ⟨v, hv, huv⟩
              refine List.any_eq_true.mpr ⟨v, ?_, huv⟩
              rw [he1, List.map_append]
              exact List.mem_append_left _ hv
            · exact hpres u hu (List.any_eq_true.mpr ⟨w, hw', huw⟩)
        · rw [if_neg hsn] at hb
          set w := dictGetD ann "url" (.pyStr "") with hw
          set c : Citation :=
            { url := w, title := dictGetD ann "title" (.pyStr "") } with hc
          have hnotin : ((cits0.map Citation.url).any fun v => pyEqH w v) = false := by
            rw [← hseen w]
            exact Bool.eq_false_iff.mpr hsn
          have hseen2 : ∀ u, ((w :: seen0).any fun v => pyEqH u v) =
              (((cits0 ++ [c]).map Citation.url).any fun v => pyEqH u v) := by
            intro u
            rw [List.any_cons, hseen u, List.map_append, List.any_append]
            simp [Bool.or_comm]
          have hh2 : ∀ x ∈ cits0 ++ [c],
              pyHashable x.url = true ∧ pyTruthy x.url = true := by
            intro x hx
            rcases List.mem_append.mp hx with hx' | hx'
            · exact hh x hx'
            · rcases List.mem_singleton.mp hx' with rfl
              exact ⟨hha, htr⟩
          have hpw2 : (((cits0 ++ [c]).map Citation.url).Pairwise
              fun a b => pyEqH a b = false) := by
            rw [List.map_append, List.pairwise_append]
            refine ⟨hpw, List.pairwise_singleton .., ?_⟩
            intro a ha b hbmem
            rcases List.mem_singleton.mp hbmem with rfl
            have : pyEqH w a = false := by
              have hz := Bool.eq_false_iff.mpr
                (fun hcontra => (Bool.eq_false_iff.mp hnotin)
                  (List.any_eq_true.mpr ⟨a, ha, hcontra⟩))
              exact hz
            rw [pyEqH_symm]
            exact this
          have hm2 : m0 ++ [(w, cits0.length + 1)] = footnoteMap (cits0 ++ [c]) := by
            rw [footnoteMap_append, ← hm]
          obtain ⟨⟨extra, he1, he2⟩, hh', hpw', hm', hpres⟩ :=
            ih (cits0 ++ [c]) (w :: seen0) (m0 ++ [(w, cits0.length + 1)]) out hb
              hseen2 hh2 hpw2 hm2
          refine ⟨⟨c :: extra, by rw [he1]; simp, ?_⟩,
            hh', hpw', hm', ?_⟩
          · rw [List.map_cons]
            exact List.Sublist.cons₂ _ he2
          · intro u hu hany
            rcases List.any_eq_true.mp hany with ⟨x, hx, hux⟩
            rcases List.mem_cons.mp hx with rfl | hx'
            · refine List.any_eq_true.mpr ⟨w, ?_, hux⟩
              rw [he1]
              rw [List.map_append, List.map_append]
              refine List.mem_append_left _ ?_
              exact List.mem_append_right _ (by simp [hc])
            · exact hpres u hu (List.any_eq_true.mpr ⟨x, hx', hux⟩)
      · rw [if_neg hha] at hb
        cases hb
    · rw [if_neg htr] at hb
      obtain ⟨⟨extra, he1, he2⟩, hh', hpw', hm', hpres⟩ :=
        ih cits0 seen0 m0 out hb hseen hh hpw hm
      refine ⟨⟨extra, he1, he2.cons _⟩, hh', hpw', hm', ?_⟩
      intro u hu hany
      rcases List.any_eq_true.mp hany with ⟨x, hx, hux⟩
      rcases List.mem_cons.mp hx with rfl | hx'
      · exact absurd (pyEqH_truthy hux ▸ hu) htr
      · exact hpres u hu (List.any_eq_true.mpr ⟨x, hx', hux⟩)

/-!
### Claim theorems
-/

/-- C1: for every batch whose completion order is some permutation of the
task indices, the returned list has the same length as the request list,
and the i-th entry is exactly the converted outcome of the i-th request's
own task (same ticker, same security name, and driven by that request's
own request key, escape status and transport outcome), independently of
the completion order. -/
theorem batch_results_positional (requests : List BatchReq)
    (rk : Nat → String) (esc : Nat → Option String)
    (mr : Nat → Except String Pdict) (order : List Nat)
    (hperm : order.Perm (List.range requests.length)) :
    (generate_commentary_batch requests rk esc mr order).length =
      requests.length ∧
    ∀ i req, requests[i]? = some req →
      (generate_commentary_batch requests rk esc mr order)[i]? =
        some (convertResult req (taskOutcome req (rk i) (esc i) (mr i))) ∧
      Option.map CommentaryResult.ticker
        (generate_commentary_batch requests rk esc mr order)[i]? =
        some req.ticker ∧
      Option.map CommentaryResult.security_name
        (generate_commentary_batch requests rk esc mr order)[i]? =
        some req.security_name := by
  have hbatch : generate_commentary_batch requests rk esc mr order =
      List.zipWith convertResult requests
        ((List.range requests.length).map (batchTask requests rk esc mr)) := by
    rw [generate_commentary_batch,
      gatherModel_eq_map requests.length order (batchTask requests rk esc mr) hperm]
  constructor
  · rw [hbatch, List.length_zipWith]
    simp
  · intro i req hreq
    have hlt : i < requests.length := by
      by_contra hge
      rw [List.getElem?_eq_none (Nat.le_of_not_lt hge)] at hreq
      cases hreq
    have hentry : (generate_commentary_batch requests rk esc mr order)[i]? =
        some (convertResult req (taskOutcome req (rk i) (esc i) (mr i))) := by
      rw [hbatch, List.getElem?_zipWith, hreq, List.getElem?_map,
        List.getElem?_range hlt]
      simp [batchTask, hreq]
    refine ⟨hentry, ?_, ?_⟩
    · rw [hentry]
      simp [(convert_task_fields req (rk i) (esc i) (mr i)).1]
    · rw [hentry]
      simp [(convert_task_fields req (rk i) (esc i) (mr i)).2]

/-- C1 witness: a two-request batch (both ticker AAPL) completing in
reverse order still maps positionally. -/
theorem batch_results_positional_witness :
    (generate_commentary_batch
        [{ ticker := "AAPL", security_name := "Apple", prompt := "pA" },
         { ticker := "AAPL", security_name := "Apple B", prompt := "pB" }]
        (fun _ => "") (fun _ => none) (fun _ => .error "boom") [1, 0]).length = 2 ∧
    Option.map CommentaryResult.ticker
      (generate_commentary_batch
        [{ ticker := "AAPL", security_name := "Apple", prompt := "pA" },
         { ticker := "AAPL", security_name := "Apple B", prompt := "pB" }]
        (fun _ => "") (fun _ => none) (fun _ => .error "boom") [1, 0])[1]? =
      some "AAPL" := by
  refine ⟨(batch_results_positional _ _ _ _ [1, 0] (by decide)).1, ?_⟩
  exact ((batch_results_positional _ _ _ _ [1, 0] (by decide)).2 1
    { ticker := "AAPL", security_name := "Apple B", prompt := "pB" } rfl).2.1

/-- C2: with the cancellation signal already set, the executor model
fails with the cancellation error and issues zero POSTs, and a batch
whose signal is set before any task starts is cancelled as a whole with
zero POSTs attempted.  (Both behaviours are modelled from the spec: the
newer `cancel_event`-aware client revision is missing from the source
tree.) -/
theorem cancellation_preempts_network :
    (∀ (rl : RateLimitConfig) (draws : Nat → Rat) (lvl : String)
       (script : List PostOutcome),
       make_request_with_cancel true rl draws lvl script = .cancelled ∧
       cancelPosts (make_request_with_cancel true rl draws lvl script) = 0) ∧
    (∀ (requests : List BatchReq) (rl : RateLimitConfig)
       (draws : Nat → Nat → Rat) (lvl : String)
       (scripts : Nat → List PostOutcome),
       batch_with_cancel true requests rl draws lvl scripts = .cancelled ∧
       batchPosts (batch_with_cancel true requests rl draws lvl scripts) = 0) :=
  ⟨fun _ _ _ _ => ⟨rfl, rfl⟩, fun _ _ _ _ _ => ⟨rfl, rfl⟩⟩

/-- C3 amended: the success/error-message equivalence holds for every
parser result and every single-request result; batch results synthesized
from captured exceptions carry the exception's string form verbatim, so
for them the equivalence holds provided every captured exception has a
non-empty string form. -/
theorem success_iff_error_nonempty :
    (∀ (resp : Pdict) (t n : String),
      ((parse_response resp t n).success = false ↔
        (parse_response resp t n).error_message ≠ "")) ∧
    (∀ (t n rk : String) (mr : Except String Pdict),
      ((generate_commentary t n rk mr).success = false ↔
        (generate_commentary t n rk mr).error_message ≠ "")) ∧
    (∀ (requests : List BatchReq) (rk : Nat → String)
       (esc : Nat → Option String) (mr : Nat → Except String Pdict)
       (order : List Nat),
      (∀ i e, esc i = some e → e ≠ "") →
      ∀ r ∈ generate_commentary_batch requests rk esc mr order,
        (r.success = false ↔ r.error_message ≠ "")) := by
  refine ⟨parse_response_success_iff, generate_commentary_success_iff, ?_⟩
  intro requests rk esc mr order hesc r hr
  unfold generate_commentary_batch at hr
  obtain ⟨req, g, -, hg, rfl⟩ := mem_zipWith_exists hr
  have hpend : ("pending" : String) ≠ "" := by decide
  have hidx : ("index out of range" : String) ≠ "" := by decide
  rcases gatherRun_mem _ order _ g hg with hinit | ⟨i, rfl⟩
  · have : g = .error "pending" := List.eq_of_mem_replicate hinit
    subst this
    simp [convertResult, hpend]
  · unfold batchTask
    split
    · next req' heq' =>
      unfold taskOutcome
      split
      · next e hesc' =>
        have he : e ≠ "" := hesc i e hesc'
        simp [convertResult, he]
      · next hesc' =>
        simpa [convertResult] using
          generate_commentary_success_iff req'.ticker req'.security_name
            (rk i) (mr i)
    · simp [convertResult, hidx]

/-- C3 witness: a concrete batch result (from a failing request with a
non-empty exception text) satisfies the equivalence. -/
theorem success_iff_witness :
    ((generate_commentary "AAA" "Aco" "" (.error "boom")).success = false ↔
      (generate_commentary "AAA" "Aco" "" (.error "boom")).error_message ≠ "") :=
  success_iff_error_nonempty.2.2
    [{ ticker := "AAA", security_name := "Aco" }] (fun _ => "") (fun _ => none)
    (fun _ => .error "boom") [0] (fun _ _ h => nomatch h)
    (generate_commentary "AAA" "Aco" "" (.error "boom"))
    (by
      rw [show generate_commentary_batch
          [{ ticker := "AAA", security_name := "Aco" }] (fun _ => "")
          (fun _ => none) (fun _ => .error "boom") [0] =
          [generate_commentary "AAA" "Aco" "" (.error "boom")] from rfl]
      exact List.mem_singleton_self _)

/-- C3 counterexample: a batch result synthesized from an exception whose
string form is empty (as a bare `CancelledError` gives) has
`success = False` and an empty `error_message`, refuting the claimed
equivalence as stated. -/
theorem success_iff_error_cex :
    ¬ (∀ (requests : List BatchReq) (rk : Nat → String)
         (esc : Nat → Option String) (mr : Nat → Except String Pdict)
         (order : List Nat),
        ∀ r ∈ generate_commentary_batch requests rk esc mr order,
          (r.success = false ↔ r.error_message ≠ "")) := by
  intro h
  have hmem :
      (mkFailResult "AAA" "Aco" "") ∈
        generate_commentary_batch [{ ticker := "AAA", security_name := "Aco" }]
          (fun _ => "") (fun _ => some "") (fun _ => .error "unused") [0] := by
    rw [show generate_commentary_batch
        [{ ticker := "AAA", security_name := "Aco" }] (fun _ => "")
        (fun _ => some "") (fun _ => .error "unused") [0] =
        [mkFailResult "AAA" "Aco" ""] from rfl]
    exact List.mem_singleton_self _
  have hiff := h _ _ _ _ _ _ hmem
  exact (hiff.mp rfl) rfl

/-- C4: a timeout, whether raised by the POST itself or by the polling
loop (whose own max-wait check raises once elapsed time exceeds the
allotted wait), is fatal for the request: the executor re-raises it after
exactly the one POST already issued, sleeping nowhere and consuming no
further scripted attempts, at whatever attempt number it strikes. -/
theorem timeout_fatal_no_retry :
    (∀ (rl : RateLimitConfig) (draws : Nat → Rat) (t : Rat) (k : Nat)
       (rest : List PostOutcome), k < 5 →
       make_request_loop rl draws t k (.timeout :: rest) =
         { out := .error .timedOut, posts := 1, sleeps := [] }) ∧
    (∀ (maxWait elapsed : Rat) (steps : List PollStep), elapsed > maxWait →
       poll_response_status maxWait elapsed steps = .error .timedOut) ∧
    (∀ (rl : RateLimitConfig) (draws : Nat → Rat) (t : Rat) (k : Nat)
       (body : Pdict) (poll : List PollStep) (rest : List PostOutcome),
       k < 5 →
       pyTruthy (dictGetD body "id" (.pyStr "")) = true →
       eqStrAny (dictGetD body "status" (.pyStr ""))
         ["queued", "in_progress", "running"] = true →
       poll_response_status t 0 poll = .error .timedOut →
       make_request_loop rl draws t k (.resp 200 none body poll :: rest) =
         { out := .error .timedOut, posts := 1, sleeps := [] }) := by
  refine ⟨?_, ?_, ?_⟩
  · intro rl draws t k rest hk
    rw [make_request_loop]
    simp [Nat.not_le.mpr hk]
  · intro maxWait elapsed steps h
    rw [poll_response_status.eq_def]
    simp [h]
  · intro rl draws t k body poll rest hk hid hst hpoll
    rw [make_request_loop]
    simp [Nat.not_le.mpr hk, hid, hst, hpoll]

/-- C4 witness: a timeout on the second attempt ends the request with one
POST and no retry, ignoring the rest of the script. -/
theorem timeout_fatal_witness :
    make_request_loop {} (fun _ => 0) 300 1
        (.timeout :: [.resp 200 none [] []]) =
      { out := .error .timedOut, posts := 1, sleeps := [] } :=
  timeout_fatal_no_retry.1 {} (fun _ => 0) 300 1 [.resp 200 none [] []]
    (by decide)

/-- C5: an HTTP 429 at any attempt makes the executor sleep for the
`Retry-After` value when present, else for this attempt's backoff, then
retry with the next attempt; in particular a 429 carrying
`Retry-After: 3` followed by a success yields the payload after two POSTs
with a single 3-second sleep. -/
theorem rate_limit_429_sleeps_then_retries :
    (∀ (rl : RateLimitConfig) (draws : Nat → Rat) (t : Rat) (k : Nat)
       (ra : Option Rat) (body : Pdict) (poll : List PollStep)
       (rest : List PostOutcome), k < 5 →
       make_request_loop rl draws t k (.resp 429 ra body poll :: rest) =
         afterRetry (ra.getD (calculate_backoff rl k (draws k)))
           (make_request_loop rl draws t (k + 1) rest)) ∧
    (make_request {} (fun _ => 0) "medium"
        [.resp 429 (some 3) [] [],
         .resp 200 none [("output", .pyList [])] []] =
      { out := .ok [("output", .pyList [])], posts := 2, sleeps := [3] }) := by
  constructor
  · intro rl draws t k ra body poll rest hk
    rw [make_request_loop]
    simp [Nat.not_le.mpr hk]
  · rfl

/-- C5 witness: a 429 with `Retry-After: 7` at attempt 2 sleeps 7 seconds
and continues with attempt 3. -/
theorem rate_limit_429_witness :
    make_request_loop {} (fun _ => 0) 300 2
        (.resp 429 (some 7) [] [] :: []) =
      afterRetry 7 (make_request_loop {} (fun _ => 0) 300 3 []) :=
  rate_limit_429_sleeps_then_retries.1 {} (fun _ => 0) 300 2 (some 7) [] [] []
    (by decide)

/-- C6: for every attempt `k` and every jitter draw `u` within the
uniform draw's support, the computed backoff lies between
`capped * (1 - jitter_factor)` and `capped * (1 + jitter_factor)`, where
`capped = min(initial_backoff * 2^k, max_backoff)`. -/
theorem backoff_within_jitter_bounds (rl : RateLimitConfig) (k : Nat) (u : Rat)
    (hlo : -(min (rl.initial_backoff * 2 ^ k) rl.max_backoff * rl.jitter_factor) ≤ u)
    (hhi : u ≤ min (rl.initial_backoff * 2 ^ k) rl.max_backoff * rl.jitter_factor) :
    min (rl.initial_backoff * 2 ^ k) rl.max_backoff * (1 - rl.jitter_factor)
      ≤ calculate_backoff rl k u ∧
    calculate_backoff rl k u
      ≤ min (rl.initial_backoff * 2 ^ k) rl.max_backoff * (1 + rl.jitter_factor) := by
  unfold calculate_backoff
  constructor <;> nlinarith [hlo, hhi]

/-- C6 witness: with the default configuration and a zero draw, attempt 3
lands inside the jitter interval. -/
theorem backoff_witness :
    min ((1 : Rat) * 2 ^ 3) 60 * (1 - 1 / 5)
      ≤ calculate_backoff {} 3 0 ∧
    calculate_backoff {} 3 0
      ≤ min ((1 : Rat) * 2 ^ 3) 60 * (1 + 1 / 5) :=
  backoff_within_jitter_bounds {} 3 0 (by norm_num) (by norm_num)

/-- C7: the extracted citation list has pairwise-distinct urls; the
url-to-footnote mapping is exactly the 1-based numbering of the citation
list in order (so the i-th citation's url looks up footnote i+1, and any
two in-text markers with the same url resolve to the same number); the
citation urls appear in the order of the start-index-sorted annotations;
and a truthy url occurring among the sorted annotations (in particular
one cited twice) yields exactly one citation. -/
theorem citation_dedup_first_seen :
    ∀ (annsL : List PyVal) (cits : List Citation) (m : List (PyVal × Nat)),
      extract_citations annsL = .ok (cits, m) →
      ((cits.map Citation.url).Pairwise fun a b => pyEqH a b = false) ∧
      m = footnoteMap cits ∧
      (∀ i (h : i < cits.length),
        mlookup m (cits.get ⟨i, h⟩).url = some (i + 1)) ∧
      (∀ urlAnns sorted, filterUrlAnns annsL = .ok urlAnns →
        sortUrlAnns urlAnns = .ok sorted →
        (cits.map Citation.url).Sublist (sorted.map annUrl) ∧
        (∀ u, pyTruthy u = true →
          ((sorted.map annUrl).any fun w => pyEqH u w) = true →
          (cits.countP fun c => pyEqH u c.url) = 1)) := by
  intro annsL cits m hx
  unfold extract_citations at hx
  split at hx
  · cases hx
  · next urlAnns0 hf0 =>
    split at hx
    · cases hx
    · next sorted0 hs0 =>
      obtain ⟨⟨extra, he1, he2⟩, hh', hpw', hm', hpres⟩ :=
        buildCits_spec sorted0 [] [] [] (cits, m) hx
          (fun u => rfl) (fun c hc => absurd hc (List.not_mem_nil c))
          List.Pairwise.nil rfl
      dsimp only at he1 hh' hpw' hm' hpres
      have hcits : cits = extra := by simpa using he1
      refine ⟨hpw', hm', ?_, ?_⟩
      · intro i h
        have := mlookup_enumFrom cits 0 hpw' (fun c hc => (hh' c hc).1) i h
        rw [hm']
        unfold footnoteMap
        rw [List.enum_eq_enumFrom]
        simpa using this
      · intro urlAnns sorted hf hs
        rw [hf0] at hf
        cases hf
        rw [hs0] at hs
        cases hs
        constructor
        · rw [hcits]
          exact he2
        · intro u hu hany
          have hanyc := hpres u hu hany
          have hc := countP_eq_one_of_any u (cits.map Citation.url) hpw' hanyc
          rw [List.countP_map] at hc
          simpa [Function.comp] using hc

/-- C7 witness: on `annsW` (the same url cited at start indexes 5 and 9,
another at 1) the second citation's url looks up footnote 2, and the
doubly-cited url yields exactly one citation. -/
theorem citation_dedup_witness :
    mlookup mW ((citsW.get ⟨1, by decide⟩).url) = some 2 ∧
    (citsW.countP fun c => pyEqH (.pyStr "https://a.com/x") c.url) = 1 := by
  have h := citation_dedup_first_seen annsW citsW mW rfl
  refine ⟨h.2.2.1 1 (by decide), ?_⟩
  exact (h.2.2.2 _ _ rfl rfl).2 (.pyStr "https://a.com/x") rfl (by decide)

/-- C8: cleaning `"Apple rose ([1](https://a.com/x?utm=1))"` against a
mapping holding `https://a.com/x` as footnote 1 yields exactly
`"Apple rose [1]"`: the fuzzy substring match reconciles the
tracking-parameter url and the parenthesized wrapper collapses to a bare
marker. -/
theorem clean_citation_scenario :
    clean_inline_citations "Apple rose ([1](https://a.com/x?utm=1))"
      [(.pyStr "https://a.com/x", 1)] = .ok "Apple rose [1]" := rfl

/-- C9: reasoning-level normalization is total and idempotent: the level
placed in the payload always belongs to the model's supported set, an
already-supported level is kept unchanged, and normalizing twice equals
normalizing once.  (The normalization itself is modelled from the spec;
the per-model table is `get_reasoning_levels_for_model` from the
source.) -/
theorem reasoning_level_normalization_ok :
    ∀ (model_id level : String),
      normalize_thinking_level model_id level ∈
        get_reasoning_levels_for_model model_id ∧
      (level ∈ get_reasoning_levels_for_model model_id →
        normalize_thinking_level model_id level = level) ∧
      normalize_thinking_level model_id (normalize_thinking_level model_id level) =
        normalize_thinking_level model_id level := by
  intro model_id level
  refine ⟨normalize_mem model_id level, ?_, ?_⟩
  · intro hm
    unfold normalize_thinking_level
    simp [hm]
  · have hm := normalize_mem model_id level
    unfold normalize_thinking_level at hm ⊢
    simp [hm]

/-- C9 witness: a supported level is kept, and normalizing `none` for the
pro model lands in that model's supported set. -/
theorem reasoning_level_witness :
    normalize_thinking_level "gpt-5-nano-2025-08-07" "medium" = "medium" ∧
    normalize_thinking_level "gpt-5.2-pro-2025-12-11" "none" ∈
      get_reasoning_levels_for_model "gpt-5.2-pro-2025-12-11" :=
  ⟨(reasoning_level_normalization_ok "gpt-5-nano-2025-08-07" "medium").2.1
      (by decide),
   (reasoning_level_normalization_ok "gpt-5.2-pro-2025-12-11" "none").1⟩

/-- C10: `_parse_response` is total over arbitrary payload dicts: it
always returns a result labelled with the caller's ticker and name; any
modelled exception in the try-body is captured into a failure whose
message starts with "Failed to parse response: "; and a payload whose
content scans succeed but find no truthy content yields the failure whose
message embeds the printed raw payload. -/
theorem parse_response_total_and_captures :
    ∀ (response : Pdict) (t n : String),
      ((parse_response response t n).ticker = t ∧
       (parse_response response t n).security_name = n) ∧
      (∀ e, parseInner response t n = .error e →
        parse_response response t n =
          mkFailResult t n ("Failed to parse response: " ++ e.text)) ∧
      (∀ items c1 a1 c2 a2,
        pyIter (dictGetD response "output" (.pyList [])) = .ok items →
        contentScan "output_text" items (.pyStr "") (.pyList []) = .ok (c1, a1) →
        pyTruthy c1 = false →
        contentScan "text" items c1 a1 = .ok (c2, a2) →
        pyTruthy c2 = false →
        parse_response response t n =
          mkFailResult t n ("No content in response: " ++ pyStrOfDict response)) := by
  intro response t n
  refine ⟨parse_response_fields response t n, ?_, ?_⟩
  · intro e he
    unfold parse_response
    rw [he]
  · intro items c1 a1 c2 a2 h1 h2 h3 h4 h5
    unfold parse_response parseInner
    simp only [h1, h2, h3, h4, h5]
    simp [h5]

/-- C10 witness: a payload whose `output` is the integer 5 makes the
traversal raise `TypeError`, captured with the required prefix. -/
theorem parse_capture_witness :
    parse_response [("output", .pyInt 5)] "T" "N" =
      mkFailResult "T" "N"
        ("Failed to parse response: int object is not iterable") :=
  (parse_response_total_and_captures [("output", .pyInt 5)] "T" "N").2.1
    (.typeErr "int object is not iterable") rfl
